import Mathlib

/-!
Verification of the polymorphic key/signature layer of the Post-Quantum
nearcore fork (core/crypto): the KeyType tag set, the per-algorithm wrapper
types, the PublicKey / SecretKey / Signature tagged unions, the canonical
text codec (algorithm name, a colon, then base58 of the raw payload), the
canonical binary codec (one discriminant byte then the raw payload), the
verification dispatch, the secp256k1 malleability guard, and the in-memory
signer.

The embedding mirrors core/crypto/src/signature.rs, signer.rs, key_file.rs
and test_utils.rs.  Byte strings are lists of naturals below 256; character
strings are lists of characters.  The underlying cryptographic primitives
(ed25519-dalek, libsecp256k1, the Falcon-512 implementation) are external
collaborators of the module and are modelled as an explicit record of
abstract functions (CryptoEnv) passed to every operation that calls them.
A Rust computation that may return a typed error or abort the process is
modelled by RustResult: ok for a normal return, error for a returned typed
error, panic for unwrap/expect/panic aborts.
-/

namespace PQCrypto

/-! ### Fixed sizes.

ed25519-dalek: PUBLIC_KEY_LENGTH = 32, SECRET_KEY_LENGTH = 32,
KEYPAIR_LENGTH = 64, SIGNATURE_LENGTH = 64.  libsecp256k1: public key 64
bytes (uncompressed, leading 0x04 stripped), secret key 32 bytes, signature
65 bytes (64 compact + 1 recovery id).  near_falcon512 exports the
Falcon-512 parameter-set constants: public key 897 bytes, secret key 1281
bytes, and a fixed (padded) detached-signature buffer of 666 bytes. -/

def ED25519_PUBLIC_KEY_LENGTH : Nat := 32
def ED25519_SECRET_KEY_LENGTH : Nat := 32
def ED25519_KEYPAIR_LENGTH : Nat := 64
def ED25519_SIGNATURE_LENGTH : Nat := 64
def SECP256K1_PUBLIC_KEY_LENGTH : Nat := 64
def SECP256K1_SECRET_KEY_SIZE : Nat := 32
def SECP256K1_SIGNATURE_LENGTH : Nat := 65
def NEAR_FALCON512_PUBKEY_SIZE : Nat := 897
def NEAR_FALCON512_PRIVKEY_SIZE : Nat := 1281
def NEAR_FALCON512_SIG_SIZE : Nat := 666

/-! ### KeyType (signature.rs lines 25-83) -/

inductive KeyType where
  | ED25519
  | SECP256K1
  | FALCON512
deriving DecidableEq, Repr

/-- Discriminant of the enum: ED25519 = 0, SECP256K1 = 1, FALCON512 = 2. -/
def KeyType.disc : KeyType → Nat
  | .ED25519 => 0
  | .SECP256K1 => 1
  | .FALCON512 => 2

/-- Display impl for KeyType: the stable lowercase name. -/
def KeyType.name : KeyType → List Char
  | .ED25519 => "ed25519".toList
  | .SECP256K1 => "secp256k1".toList
  | .FALCON512 => "falcon512".toList

/-- Rust u8::to_ascii_lowercase on one character. -/
def asciiLower (c : Char) : Char :=
  if 'A' ≤ c ∧ c ≤ 'Z' then Char.ofNat (c.toNat + 32) else c

/-- Error taxonomy of the crate (crate::errors is not under src; the variant
set is pinned by every construction site in signature.rs and by the spec
taxonomy: UnknownKeyType, InvalidLength with expected and received lengths,
InvalidData wrapping a lower-level message). -/
inductive B58Err where
  | invalidChar
  | bufferTooSmall
deriving DecidableEq, Repr

/-- Sources of InvalidData messages; the concrete message text is irrelevant
to the claims, only which lower-level failure produced it. -/
inductive DataErr where
  | b58 (e : B58Err)
  | ed25519Reject
  | secpSkReject
  | falconReject
  | secpSigLen
  | unknownKeyTypeByte (b : Nat)
  | unexpectedEnd
deriving DecidableEq, Repr

inductive ParseError where
  | unknownKeyType (token : List Char)
  | invalidLength (expected received : Nat)
  | invalidData (msg : DataErr)
deriving DecidableEq, Repr

/-- Outcome of a Rust computation: a returned value, a returned typed error,
or a process abort (unwrap, expect, panic). -/
inductive RustResult (α : Type) where
  | ok (a : α)
  | error (e : ParseError)
  | panic
deriving DecidableEq, Repr

/-- FromStr for KeyType: lowercase the token, match the three names, else
UnknownKeyType carrying the lowercased token. -/
def KeyType.fromString (s : List Char) : RustResult KeyType :=
  let l := s.map asciiLower
  if l = "ed25519".toList then .ok .ED25519
  else if l = "secp256k1".toList then .ok .SECP256K1
  else if l = "falcon512".toList then .ok .FALCON512
  else .error (.unknownKeyType l)

/-- TryFrom u8 for KeyType. -/
def KeyType.tryFromByte (b : Nat) : RustResult KeyType :=
  if b = 0 then .ok .ED25519
  else if b = 1 then .ok .SECP256K1
  else if b = 2 then .ok .FALCON512
  else .error (.invalidData (.unknownKeyTypeByte b))

/-! ### split_key_type_data (signature.rs lines 75-83): find the first
colon; with no colon the whole string is an ED25519 payload; otherwise the
text before the colon names the algorithm and the text after it is the
payload. -/

/-- str::find for the colon character: index of the first occurrence. -/
def findColonIdx : List Char → Option Nat
  | [] => none
  | c :: cs => if c = ':' then some 0 else (findColonIdx cs).map (· + 1)

def split_key_type_data (s : List Char) : RustResult (KeyType × List Char) :=
  match findColonIdx s with
  | none => .ok (.ED25519, s)
  | some i =>
    match KeyType.fromString (s.take i) with
    | .ok t => .ok (t, s.drop (i + 1))
    | .error e => .error e
    | .panic => .panic

/-! ### Base58 (the bs58 crate, used for every text payload).

Encoding: each leading zero byte becomes the digit 1; the remaining bytes,
read as a big-endian number, are written in big-endian base 58 through the
Bitcoin alphabet.  Decoding into a caller-provided buffer: each character is
mapped back to its digit value (unknown characters are an error), each
leading 1 becomes a zero byte, the remaining digits are read as a big-endian
number and written out in big-endian base 256; output longer than the buffer
is a buffer-too-small error, and the number of bytes written is returned to
the caller (who compares it with the expected size). -/

def b58Alphabet : List Char :=
  "123456789ABCDEFGHJKLMNPQRSTUVWXYZabcdefghijkmnopqrstuvwxyz".toList

def b58Char (d : Nat) : Char := b58Alphabet.getD d '1'

def b58ValAux : List Char → Nat → Char → Option Nat
  | [], _, _ => none
  | a :: as, i, c => if a = c then some i else b58ValAux as (i + 1) c

def b58Val (c : Char) : Option Nat := b58ValAux b58Alphabet 0 c

/-- Value of a big-endian digit list in the given base. -/
def beNat (b : Nat) (l : List Nat) : Nat := Nat.ofDigits b l.reverse

/-- Big-endian digit list of a number in the given base (no leading zeros,
empty for zero). -/
def beDigits (b n : Nat) : List Nat := (Nat.digits b n).reverse

def leadingZeroCount (l : List Nat) : Nat := (l.takeWhile (· = 0)).length

def b58Encode (bytes : List Nat) : List Char :=
  List.replicate (leadingZeroCount bytes) '1'
    ++ (beDigits 58 (beNat 256 bytes)).map b58Char

def decodeVals : List Char → Option (List Nat)
  | [] => some []
  | c :: cs =>
    match b58Val c, decodeVals cs with
    | some v, some vs => some (v :: vs)
    | _, _ => none

def b58DecodeInto (bufLen : Nat) (s : List Char) : Except B58Err (List Nat) :=
  match decodeVals s with
  | none => .error .invalidChar
  | some vals =>
    let out := List.replicate (leadingZeroCount vals) 0
        ++ beDigits 256 (beNat 58 vals)
    if out.length ≤ bufLen then .ok out else .error .bufferTooSmall

/-! ### The external cryptographic collaborators.

The spec excludes the signing/verification math of each scheme; the code
calls into ed25519-dalek, libsecp256k1 and near_falcon512.  Each call site
is modelled by one abstract function over raw bytes.  Boolean fields stand
for fallible constructors (true: the library accepts the bytes), list
fields for byte-producing operations. -/

structure CryptoEnv where
  /-- ed25519_dalek PublicKey::from_bytes succeeds on these 32 bytes. -/
  edPkOk : List Nat → Bool
  /-- ed25519_dalek verify: public key bytes, data, signature bytes. -/
  edVerify : List Nat → List Nat → List Nat → Bool
  /-- ed25519_dalek Signature::from_bytes succeeds on these bytes. -/
  edSigOk : List Nat → Bool
  /-- ed25519_dalek Keypair::from_bytes succeeds on these 64 bytes. -/
  edKeypairOk : List Nat → Bool
  /-- ed25519_dalek Keypair::sign: keypair bytes, data, 64-byte signature. -/
  edSign : List Nat → List Nat → List Nat
  /-- ed25519_dalek PublicKey::from(SecretKey): 32 seed bytes to 32 public
  bytes. -/
  edDerivePub : List Nat → List Nat
  /-- ed25519_dalek Keypair::generate under the given entropy. -/
  edGen : List Nat → List Nat
  /-- secp256k1 RecoverableSignature::from_compact succeeds on these 64
  bytes with this (already validated) recovery id. -/
  secpFromCompactOk : List Nat → Nat → Bool
  /-- secp256k1 PublicKey::from_slice succeeds on these 65 bytes. -/
  secpPkOk : List Nat → Bool
  /-- secp256k1 verify_ecdsa: 32-byte message, 64-byte compact signature
  (after to_standard normalization), 64-byte key body. -/
  secpVerifyEcdsa : List Nat → List Nat → List Nat → Bool
  /-- secp256k1 SecretKey::from_slice succeeds on these 32 bytes. -/
  secpSkOk : List Nat → Bool
  /-- secp256k1 sign_ecdsa_recoverable then serialize_compact: secret key,
  32-byte message, giving the 64 compact bytes and the recovery id. -/
  secpSignRec : List Nat → List Nat → List Nat × Nat
  /-- secp256k1 PublicKey::from_secret_key then serialize_uncompressed
  (65 bytes, leading 0x04). -/
  secpDerivePub : List Nat → List Nat
  /-- secp256k1 SecretKey::new from a seeded StdRng. -/
  secpSkFromSeed : List Nat → List Nat
  /-- secp256k1 SecretKey::new from OsRng entropy. -/
  secpGen : List Nat → List Nat
  /-- falcon512 PublicKey::from_bytes succeeds on these 897 bytes. -/
  falconPkOk : List Nat → Bool
  /-- falcon512_verify_detached_signature succeeds: public key, data,
  signature bytes. -/
  falconVerify : List Nat → List Nat → List Nat → Bool
  /-- falcon512 DetachedSignature::from_bytes succeeds on these bytes. -/
  falconSigOk : List Nat → Bool
  /-- falcon512 SecretKey::from_bytes succeeds on these 1281 bytes. -/
  falconSkOk : List Nat → Bool
  /-- falcon512_detached_sign: secret key, data, signature bytes. -/
  falconSign : List Nat → List Nat → List Nat
  /-- falcon512_public_key_from_secret_key. -/
  falconDerivePub : List Nat → List Nat
  /-- falcon512_keypair_from_seed, secret half. -/
  falconSkFromSeed : List Nat → List Nat
  /-- falcon512_keypair under OsRng entropy, secret half. -/
  falconGenSk : List Nat → List Nat

/-! ### The three tagged unions.

Each variant owns the raw byte buffer of its wrapper type: ED25519PublicKey
32 bytes, Secp256K1PublicKey 64 bytes, Falcon512PublicKey 897 bytes;
ED25519SecretKey the full 64-byte keypair encoding, secp256k1::SecretKey 32
bytes, Falcon512SecretKey 1281 bytes; ed25519 signature 64 bytes,
Secp256K1Signature 65 bytes, Falcon512Signature the fixed 666-byte
detached-signature buffer. -/

inductive PublicKey where
  | ED25519 (data : List Nat)
  | SECP256K1 (data : List Nat)
  | FALCON512 (data : List Nat)
deriving DecidableEq, Repr

inductive SecretKey where
  | ED25519 (data : List Nat)
  | SECP256K1 (data : List Nat)
  | FALCON512 (data : List Nat)
deriving DecidableEq, Repr

inductive Signature where
  | ED25519 (data : List Nat)
  | SECP256K1 (data : List Nat)
  | FALCON512 (data : List Nat)
deriving DecidableEq, Repr

def PublicKey.key_type : PublicKey → KeyType
  | .ED25519 _ => .ED25519
  | .SECP256K1 _ => .SECP256K1
  | .FALCON512 _ => .FALCON512

def PublicKey.key_data : PublicKey → List Nat
  | .ED25519 d | .SECP256K1 d | .FALCON512 d => d

def SecretKey.key_type : SecretKey → KeyType
  | .ED25519 _ => .ED25519
  | .SECP256K1 _ => .SECP256K1
  | .FALCON512 _ => .FALCON512

/-- The raw buffer a SecretKey prints and serializes (Display impl): the
full keypair encoding for ED25519, the scheme-native buffers otherwise. -/
def SecretKey.key_data : SecretKey → List Nat
  | .ED25519 d | .SECP256K1 d | .FALCON512 d => d

def Signature.key_type : Signature → KeyType
  | .ED25519 _ => .ED25519
  | .SECP256K1 _ => .SECP256K1
  | .FALCON512 _ => .FALCON512

/-- to_bytes / as_bytes of the wrapped signature object. -/
def Signature.key_data : Signature → List Nat
  | .ED25519 d | .SECP256K1 d | .FALCON512 d => d

/-- Expected raw payload size of a public key of the given algorithm. -/
def pubKeyDataLen : KeyType → Nat
  | .ED25519 => ED25519_PUBLIC_KEY_LENGTH
  | .SECP256K1 => SECP256K1_PUBLIC_KEY_LENGTH
  | .FALCON512 => NEAR_FALCON512_PUBKEY_SIZE

/-- Expected raw payload size of a secret key of the given algorithm (the
full 64-byte keypair encoding for ED25519). -/
def skDataLen : KeyType → Nat
  | .ED25519 => ED25519_KEYPAIR_LENGTH
  | .SECP256K1 => SECP256K1_SECRET_KEY_SIZE
  | .FALCON512 => NEAR_FALCON512_PRIVKEY_SIZE

/-- Expected raw payload size of a signature of the given algorithm. -/
def sigDataLen : KeyType → Nat
  | .ED25519 => ED25519_SIGNATURE_LENGTH
  | .SECP256K1 => SECP256K1_SIGNATURE_LENGTH
  | .FALCON512 => NEAR_FALCON512_SIG_SIZE

/-- Structural well-formedness: the wrapped buffer has the fixed size of its
algorithm and holds bytes. -/
def PublicKey.wf (pk : PublicKey) : Prop :=
  pk.key_data.length = pubKeyDataLen pk.key_type ∧ ∀ b ∈ pk.key_data, b < 256

def SecretKey.wf (sk : SecretKey) : Prop :=
  sk.key_data.length = skDataLen sk.key_type ∧ ∀ b ∈ sk.key_data, b < 256

def Signature.wf (sig : Signature) : Prop :=
  sig.key_data.length = sigDataLen sig.key_type ∧ ∀ b ∈ sig.key_data, b < 256

instance : DecidablePred PublicKey.wf := fun pk => by
  unfold PublicKey.wf; infer_instance

instance : DecidablePred SecretKey.wf := fun sk => by
  unfold SecretKey.wf; infer_instance

instance : DecidablePred Signature.wf := fun sig => by
  unfold Signature.wf; infer_instance

/-- A SecretKey value of the Rust union holds, in its SECP256K1 variant, a
live secp256k1::SecretKey object, so its bytes are accepted by the library
parser; the other variants hold plain buffers. -/
def SecretKey.acceptedBy (env : CryptoEnv) : SecretKey → Prop
  | .ED25519 _ => True
  | .SECP256K1 d => env.secpSkOk d = true
  | .FALCON512 _ => True

/-- A Signature value holds a live dalek signature object (ED25519) or a
live DetachedSignature object (FALCON512), so the corresponding byte parser
accepts its bytes; the SECP256K1 variant is a plain buffer. -/
def Signature.acceptedBy (env : CryptoEnv) : Signature → Prop
  | .ED25519 d => env.edSigOk d = true
  | .SECP256K1 _ => True
  | .FALCON512 d => env.falconSigOk d = true

/-! ### Canonical text codec.

Formatting (From PublicKey for String, Display for SecretKey and
Signature): the algorithm name, a colon, then base58 of the raw buffer.
Parsing (the three FromStr impls): split at the first colon, base58-decode
into a zero-initialized buffer of the fixed expected size, compare the
written length with the expected size (mismatch: InvalidLength carrying
both), then rebuild the wrapper.  A base58 failure (unknown character or
output exceeding the buffer) is InvalidData wrapping the decoder message. -/

def PublicKey.toStr (pk : PublicKey) : List Char :=
  pk.key_type.name ++ ':' :: b58Encode pk.key_data

def SecretKey.toStr (sk : SecretKey) : List Char :=
  sk.key_type.name ++ ':' :: b58Encode sk.key_data

def Signature.toStr (sig : Signature) : List Char :=
  sig.key_type.name ++ ':' :: b58Encode sig.key_data

/-- Shared decode step of every FromStr branch: bs58 decode into a buffer of
the expected size, then the length check. -/
def parsePayload (expected : Nat) (keyData : List Char) :
    RustResult (List Nat) :=
  match b58DecodeInto expected keyData with
  | .error e => .error (.invalidData (.b58 e))
  | .ok out =>
    if out.length = expected then .ok out
    else .error (.invalidLength expected out.length)

def PublicKey.fromStr (s : List Char) : RustResult PublicKey :=
  match split_key_type_data s with
  | .error e => .error e
  | .panic => .panic
  | .ok (t, keyData) =>
    match parsePayload (pubKeyDataLen t) keyData with
    | .error e => .error e
    | .panic => .panic
    | .ok bytes =>
      match t with
      | .ED25519 => .ok (.ED25519 bytes)
      | .SECP256K1 => .ok (.SECP256K1 bytes)
      | .FALCON512 => .ok (.FALCON512 bytes)

def SecretKey.fromStr (env : CryptoEnv) (s : List Char) :
    RustResult SecretKey :=
  match split_key_type_data s with
  | .error e => .error e
  | .panic => .panic
  | .ok (t, keyData) =>
    match parsePayload (skDataLen t) keyData with
    | .error e => .error e
    | .panic => .panic
    | .ok bytes =>
      match t with
      | .ED25519 => .ok (.ED25519 bytes)
      | .SECP256K1 =>
        if env.secpSkOk bytes then .ok (.SECP256K1 bytes)
        else .error (.invalidData .secpSkReject)
      | .FALCON512 => .ok (.FALCON512 bytes)

def Signature.fromStr (env : CryptoEnv) (s : List Char) :
    RustResult Signature :=
  match split_key_type_data s with
  | .error e => .error e
  | .panic => .panic
  | .ok (t, sigData) =>
    match parsePayload (sigDataLen t) sigData with
    | .error e => .error e
    | .panic => .panic
    | .ok bytes =>
      match t with
      | .ED25519 =>
        if env.edSigOk bytes then .ok (.ED25519 bytes)
        else .error (.invalidData .ed25519Reject)
      | .SECP256K1 => .ok (.SECP256K1 bytes)
      | .FALCON512 =>
        -- DetachedSignature::from_bytes(..).expect(..): a library reject
        -- aborts instead of returning an error.
        if env.falconSigOk bytes then .ok (.FALCON512 bytes)
        else .panic

/-! ### Canonical binary codec (BorshSerialize / BorshDeserialize).

One discriminant byte, then the raw buffer, no length prefix.  Decoding
reads the discriminant (an unknown value is an InvalidData-wrapped
UnknownKeyType), then exactly the fixed number of payload bytes. -/

/-- Borsh read of a fixed-size byte array: take exactly n bytes, error on
short input. -/
def readBytes (n : Nat) (buf : List Nat) :
    RustResult (List Nat × List Nat) :=
  if n ≤ buf.length then .ok (buf.take n, buf.drop n)
  else .error (.invalidData .unexpectedEnd)

def PublicKey.borshSer (pk : PublicKey) : List Nat :=
  pk.key_type.disc :: pk.key_data

def PublicKey.borshDeser (buf : List Nat) :
    RustResult (PublicKey × List Nat) :=
  match buf with
  | [] => .error (.invalidData .unexpectedEnd)
  | b :: rest =>
    match KeyType.tryFromByte b with
    | .error e => .error e
    | .panic => .panic
    | .ok t =>
      match readBytes (pubKeyDataLen t) rest with
      | .error e => .error e
      | .panic => .panic
      | .ok (bytes, rem) =>
        match t with
        | .ED25519 => .ok (.ED25519 bytes, rem)
        | .SECP256K1 => .ok (.SECP256K1 bytes, rem)
        | .FALCON512 => .ok (.FALCON512 bytes, rem)

def Signature.borshSer (sig : Signature) : List Nat :=
  sig.key_type.disc :: sig.key_data

def Signature.borshDeser (env : CryptoEnv) (buf : List Nat) :
    RustResult (Signature × List Nat) :=
  match buf with
  | [] => .error (.invalidData .unexpectedEnd)
  | b :: rest =>
    match KeyType.tryFromByte b with
    | .error e => .error e
    | .panic => .panic
    | .ok t =>
      match readBytes (sigDataLen t) rest with
      | .error e => .error e
      | .panic => .panic
      | .ok (bytes, rem) =>
        match t with
        | .ED25519 =>
          if env.edSigOk bytes then .ok (.ED25519 bytes, rem)
          else .error (.invalidData .ed25519Reject)
        | .SECP256K1 => .ok (.SECP256K1 bytes, rem)
        | .FALCON512 =>
          -- DetachedSignature::from_bytes(..).expect(..) again: aborts.
          if env.falconSigOk bytes then .ok (.FALCON512 bytes, rem)
          else .panic

/-- Modelled from the spec: src contains no binary codec for SecretKey (only
PublicKey and Signature implement Borsh in signature.rs); sections 4.3 and 6
of the spec define the shared layout for all three union types as one
discriminant byte followed by the fixed-length raw payload, the ED25519
payload being the 64-byte keypair encoding. -/
def SecretKey.borshSer (sk : SecretKey) : List Nat :=
  sk.key_type.disc :: sk.key_data

/-- Modelled from the spec: decoder for the SecretKey layout above (read the
discriminant, map it to a KeyType, read exactly the expected number of
payload bytes). -/
def SecretKey.borshDeser (buf : List Nat) :
    RustResult (SecretKey × List Nat) :=
  match buf with
  | [] => .error (.invalidData .unexpectedEnd)
  | b :: rest =>
    match KeyType.tryFromByte b with
    | .error e => .error e
    | .panic => .panic
    | .ok t =>
      match readBytes (skDataLen t) rest with
      | .error e => .error e
      | .panic => .panic
      | .ok (bytes, rem) =>
        match t with
        | .ED25519 => .ok (.ED25519 bytes, rem)
        | .SECP256K1 => .ok (.SECP256K1 bytes, rem)
        | .FALCON512 => .ok (.FALCON512 bytes, rem)

/-! ### Signature::from_parts (signature.rs lines 957-982).

ED25519: dalek Signature::from_bytes, a reject is InvalidData.  SECP256K1:
Secp256K1Signature::try_from, whose length failure is rewritten into
InvalidData with a fixed message.  FALCON512: DetachedSignature::from_bytes
with expect, so a reject aborts. -/

def Signature.from_parts (env : CryptoEnv) (signature_type : KeyType)
    (signature_data : List Nat) : RustResult Signature :=
  match signature_type with
  | .ED25519 =>
    if env.edSigOk signature_data then .ok (.ED25519 signature_data)
    else .error (.invalidData .ed25519Reject)
  | .SECP256K1 =>
    if signature_data.length = 65 then .ok (.SECP256K1 signature_data)
    else .error (.invalidData .secpSigLen)
  | .FALCON512 =>
    if env.falconSigOk signature_data then .ok (.FALCON512 signature_data)
    else .panic

/-! ### Signature::verify (signature.rs lines 986-1023).

Matching ED25519 pair: dalek PublicKey::from_bytes, a reject is false, then
dalek verify.  Matching SECP256K1 pair, in source order: RecoveryId::
from_i32(sig[64]).unwrap() (aborts unless the byte is 0..=3), Recoverable
Signature::from_compact(..).unwrap() (aborts on a library reject), to_
standard, then verify_ecdsa whose arguments are Message::from_slice(data).
expect("32 bytes") (aborts unless data is 32 bytes) and PublicKey::
from_slice(0x04 ++ key).unwrap() (aborts on a library reject).  Matching
FALCON512 pair: falcon PublicKey::from_bytes, a reject is false, then the
detached verifier.  Every mismatched pair: false. -/

def Signature.verify (env : CryptoEnv) (sig : Signature) (data : List Nat)
    (public_key : PublicKey) : RustResult Bool :=
  match sig, public_key with
  | .ED25519 s, .ED25519 p =>
    if env.edPkOk p then .ok (env.edVerify p data s) else .ok false
  | .SECP256K1 s, .SECP256K1 p =>
    if 4 ≤ s.getD 64 0 then .panic
    else if env.secpFromCompactOk (s.take 64) (s.getD 64 0) = false then
      .panic
    else if data.length ≠ 32 then .panic
    else if env.secpPkOk (4 :: p) = false then .panic
    else .ok (env.secpVerifyEcdsa data (s.take 64) p)
  | .FALCON512 s, .FALCON512 p =>
    if env.falconPkOk p then .ok (env.falconVerify p data s) else .ok false
  | _, _ => .ok false

/-! ### SecretKey operations (signature.rs lines 566-649, test_utils.rs). -/

def SecretKey.public_key (env : CryptoEnv) : SecretKey → PublicKey
  | .ED25519 kp => .ED25519 (kp.drop ED25519_SECRET_KEY_LENGTH)
  | .SECP256K1 sk =>
    .SECP256K1 (((env.secpDerivePub sk).drop 1).take 64)
  | .FALCON512 sk => .FALCON512 (env.falconDerivePub sk)

def SecretKey.sign (env : CryptoEnv) (sk : SecretKey) (data : List Nat) :
    RustResult Signature :=
  match sk with
  | .ED25519 kp =>
    -- Keypair::from_bytes(..).unwrap()
    if env.edKeypairOk kp then .ok (.ED25519 (env.edSign kp data))
    else .panic
  | .SECP256K1 sk =>
    -- Message::from_slice(data).expect("32 bytes")
    if data.length = 32 then
      let r := env.secpSignRec sk data
      .ok (.SECP256K1 ((r.1.take 64) ++ [r.2]))
    else .panic
  | .FALCON512 sk =>
    -- falcon512::SecretKey::from_bytes(..).unwrap()
    if env.falconSkOk sk then .ok (.FALCON512 (env.falconSign sk data))
    else .panic

/-- Left-justify the seed bytes in a space-padded (0x20) fixed buffer
(test_utils.rs, both seeded generators). -/
def padSeed (n : Nat) (seed : List Nat) : List Nat :=
  seed.take n ++ List.replicate (n - (seed.take n).length) 32

/-- SecretKey::from_seed (test_utils.rs lines 48-64): ED25519 uses the
padded seed directly as the raw scalar and stores the derived keypair;
SECP256K1 seeds an RNG with the padded seed; FALCON512 feeds the raw seed
bytes to the scheme-native seeded generator. -/
def SecretKey.from_seed (env : CryptoEnv) (key_type : KeyType)
    (seed : List Nat) : SecretKey :=
  match key_type with
  | .ED25519 =>
    let s := padSeed ED25519_SECRET_KEY_LENGTH seed
    .ED25519 (s ++ env.edDerivePub s)
  | .SECP256K1 => .SECP256K1 (env.secpSkFromSeed (padSeed 32 seed))
  | .FALCON512 => .FALCON512 (env.falconSkFromSeed seed)

/-- SecretKey::from_random (signature.rs lines 575-590), with the operating
system entropy it draws made explicit. -/
def SecretKey.from_random (env : CryptoEnv) (key_type : KeyType)
    (entropy : List Nat) : SecretKey :=
  match key_type with
  | .ED25519 => .ED25519 (env.edGen entropy)
  | .SECP256K1 => .SECP256K1 (env.secpGen entropy)
  | .FALCON512 => .FALCON512 (env.falconGenSk entropy)

/-! ### Secp256K1Signature::check_signature_values (signature.rs lines
758-788).  r is bytes 0..32 and s is bytes 32..64, both read big-endian
(U256::from of a 32-byte array); the secp256k1 group order and
half-order-plus-one constants are U256 values given by their four 64-bit
little-endian limbs. -/

def u256OfLimbs (l0 l1 l2 l3 : Nat) : Nat :=
  l0 + l1 * 2 ^ 64 + l2 * 2 ^ 128 + l3 * 2 ^ 192

def SECP256K1_N : Nat :=
  u256OfLimbs 0xbfd25e8cd0364141 0xbaaedce6af48a03b
    0xfffffffffffffffe 0xffffffffffffffff

def SECP256K1_N_HALF_ONE : Nat :=
  u256OfLimbs 0xdfe92f46681b20a1 0x5d576e7357a4501d
    0xffffffffffffffff 0x7fffffffffffffff

def check_signature_values (sig : List Nat) (reject_upper : Bool) : Bool :=
  let r := beNat 256 (sig.take 32)
  let s := beNat 256 ((sig.drop 32).take 32)
  let sCheck := if reject_upper then SECP256K1_N_HALF_ONE else SECP256K1_N
  decide (r < SECP256K1_N) && decide (s < sCheck)

/-! ### Wrapper equality and ordering.

Rust derives nothing here: PartialEq for ED25519SecretKey compares the
slices [..SECRET_KEY_LENGTH] (the seed halves only); PartialEq for
Falcon512SecretKey compares [..PRIVKEY_SIZE] (the whole buffer); PartialEq
and Ord for Secp256K1PublicKey compare the whole 64-byte slices, Ord being
the lexicographic slice order. -/

def ed25519SkEq (a b : List Nat) : Bool :=
  a.take ED25519_SECRET_KEY_LENGTH = b.take ED25519_SECRET_KEY_LENGTH

def falcon512SkEq (a b : List Nat) : Bool :=
  a.take NEAR_FALCON512_PRIVKEY_SIZE = b.take NEAR_FALCON512_PRIVKEY_SIZE

def secp256k1PkEq (a b : List Nat) : Bool := a = b

/-- Ord on u8. -/
def byteCmp (a b : Nat) : Ordering :=
  if a < b then .lt else if b < a then .gt else .eq

/-- Ord on byte slices: lexicographic, elementwise first, then by length. -/
def sliceCmp : List Nat → List Nat → Ordering
  | [], [] => .eq
  | [], _ :: _ => .lt
  | _ :: _, [] => .gt
  | a :: as, b :: bs =>
    match byteCmp a b with
    | .eq => sliceCmp as bs
    | o => o

def secp256k1PkCmp (a b : List Nat) : Ordering := sliceCmp a b

/-! ### KeyFile and InMemorySigner (key_file.rs, signer.rs). -/

structure KeyFile where
  account_id : List Char
  public_key : PublicKey
  secret_key : SecretKey
deriving DecidableEq, Repr

structure InMemorySigner where
  account_id : List Char
  public_key : PublicKey
  secret_key : SecretKey
deriving DecidableEq, Repr

def InMemorySigner.from_seed (env : CryptoEnv) (account_id : List Char)
    (key_type : KeyType) (seed : List Nat) : InMemorySigner :=
  let secret_key := SecretKey.from_seed env key_type seed
  ⟨account_id, secret_key.public_key env, secret_key⟩

def InMemorySigner.from_secret_key (env : CryptoEnv)
    (account_id : List Char) (secret_key : SecretKey) : InMemorySigner :=
  ⟨account_id, secret_key.public_key env, secret_key⟩

def InMemorySigner.from_random (env : CryptoEnv) (account_id : List Char)
    (key_type : KeyType) (entropy : List Nat) : InMemorySigner :=
  let secret_key := SecretKey.from_random env key_type entropy
  ⟨account_id, secret_key.public_key env, secret_key⟩

/-- From KeyFile for InMemorySigner (signer.rs lines 88-96): all three
fields are copied verbatim, nothing is re-derived or checked. -/
def InMemorySigner.fromKeyFile (key_file : KeyFile) : InMemorySigner :=
  ⟨key_file.account_id, key_file.public_key, key_file.secret_key⟩

/-! ### Base58 round-trip. -/

theorem b58Val_one : b58Val '1' = some 0 := rfl

theorem b58Val_b58Char {d : Nat} (h : d < 58) : b58Val (b58Char d) = some d :=
  (by decide : ∀ x, x < 58 → b58Val (b58Char x) = some x) d h

theorem b58Alphabet_length : b58Alphabet.length = 58 := by decide

theorem b58Char_ne_colon (d : Nat) : b58Char d ≠ ':' := by
  by_cases h : d < 58
  · exact (by decide : ∀ x, x < 58 → b58Char x ≠ ':') d h
  · unfold b58Char
    rw [List.getD_eq_default]
    · decide
    · rw [b58Alphabet_length]; omega

theorem decodeVals_append {a b : List Char} {u v : List Nat}
    (ha : decodeVals a = some u) (hb : decodeVals b = some v) :
    decodeVals (a ++ b) = some (u ++ v) := by
  induction a generalizing u with
  | nil =>
    simp only [decodeVals] at ha
    cases ha
    simpa using hb
  | cons c cs ih =>
    rw [List.cons_append]
    simp only [decodeVals] at ha ⊢
    cases hc : b58Val c with
    | none => rw [hc] at ha; exact absurd ha (by simp)
    | some w =>
      rw [hc] at ha
      cases hcs : decodeVals cs with
      | none => rw [hcs] at ha; exact absurd ha (by simp)
      | some ws =>
        rw [hcs] at ha
        cases ha
        rw [ih hcs]
        rfl

theorem decodeVals_replicate_one (z : Nat) :
    decodeVals (List.replicate z '1') = some (List.replicate z 0) := by
  induction z with
  | zero => rfl
  | succ n ih => simp only [List.replicate_succ, decodeVals, b58Val_one, ih]

theorem decodeVals_map {l : List Nat} (h : ∀ d ∈ l, d < 58) :
    decodeVals (l.map b58Char) = some l := by
  induction l with
  | nil => rfl
  | cons d ds ih =>
    simp only [List.map_cons, decodeVals,
      b58Val_b58Char (h d (List.mem_cons_self d ds)),
      ih (fun x hx => h x (List.mem_cons_of_mem d hx))]

theorem leadingZeroCount_replicate (z : Nat) :
    leadingZeroCount (List.replicate z 0) = z := by
  induction z with
  | zero => rfl
  | succ n ih =>
    simp only [leadingZeroCount, List.replicate_succ, List.takeWhile_cons]
    simpa [leadingZeroCount] using ih

theorem leadingZeroCount_replicate_append {z x : Nat} {l : List Nat}
    (hx : x ≠ 0) :
    leadingZeroCount (List.replicate z 0 ++ x :: l) = z := by
  induction z with
  | zero =>
    simp [leadingZeroCount, List.takeWhile_cons, hx]
  | succ n ih =>
    simp only [List.replicate_succ, List.cons_append, leadingZeroCount,
      List.takeWhile_cons] at ih ⊢
    simpa [leadingZeroCount] using ih

theorem ofDigits_replicate_zero (b z : Nat) :
    Nat.ofDigits b (List.replicate z 0) = 0 := by
  induction z with
  | zero => rfl
  | succ n ih => simp [List.replicate_succ, Nat.ofDigits_cons, ih]

theorem beNat_replicate_zero_append (b z : Nat) (l : List Nat) :
    beNat b (List.replicate z 0 ++ l) = beNat b l := by
  unfold beNat
  rw [List.reverse_append, List.reverse_replicate, Nat.ofDigits_append,
    ofDigits_replicate_zero]
  ring

theorem beNat_beDigits (b n : Nat) : beNat b (beDigits b n) = n := by
  unfold beNat beDigits
  rw [List.reverse_reverse, Nat.ofDigits_digits]

theorem beDigits_beNat {b : Nat} (hb : 1 < b) {x : Nat} {xs : List Nat}
    (hx : x ≠ 0) (hlt : ∀ y ∈ x :: xs, y < b) :
    beDigits b (beNat b (x :: xs)) = x :: xs := by
  unfold beNat beDigits
  rw [Nat.digits_ofDigits b hb ((x :: xs).reverse)
    (fun y hy => hlt y (List.mem_reverse.mp hy))
    (fun hne => ?_), List.reverse_reverse]
  have h1 : ((x :: xs).reverse).getLast? = some x := by
    rw [List.getLast?_reverse]
    rfl
  rw [List.getLast?_eq_getLast _ hne] at h1
  intro h0
  rw [h0] at h1
  exact hx (Option.some.inj h1).symm

theorem beDigits_head {b n : Nat} (hn : n ≠ 0) :
    ∃ d ds, beDigits b n = d :: ds ∧ d ≠ 0 := by
  have hne : Nat.digits b n ≠ [] := Nat.digits_ne_nil_iff_ne_zero.mpr hn
  have hlast := Nat.getLast_digit_ne_zero b hn
  cases hrev : (Nat.digits b n).reverse with
  | nil => exact absurd (List.reverse_eq_nil_iff.mp hrev) hne
  | cons d ds =>
    refine ⟨d, ds, hrev, ?_⟩
    have h1 : (Nat.digits b n).getLast? = some d := by
      rw [← List.head?_reverse, hrev]
      rfl
    rw [List.getLast?_eq_getLast _ hne] at h1
    intro h0
    exact hlast ((Option.some.inj h1).trans h0)

theorem dropWhile_zero_head {l : List Nat} {x : Nat} {xs : List Nat}
    (h : l.dropWhile (· = 0) = x :: xs) : x ≠ 0 := by
  induction l with
  | nil => simp [List.dropWhile] at h
  | cons c cs ih =>
    rw [List.dropWhile_cons] at h
    by_cases hc : c = 0
    · rw [if_pos (by simpa using hc)] at h
      exact ih h
    · rw [if_neg (by simpa using hc)] at h
      cases h
      exact hc

theorem zero_split (l : List Nat) :
    l = List.replicate (leadingZeroCount l) 0 ++ l.dropWhile (· = 0) := by
  have htake : l.takeWhile (· = 0) = List.replicate (leadingZeroCount l) 0 := by
    apply List.eq_replicate_of_mem
    intro x hx
    simpa using List.mem_takeWhile_imp hx
  rw [leadingZeroCount] at htake
  calc l = l.takeWhile (· = 0) ++ l.dropWhile (· = 0) :=
        (List.takeWhile_append_dropWhile _ _).symm
    _ = _ := by rw [htake]; rfl

theorem mem_dropWhile_zero {l : List Nat} {y : Nat}
    (hy : y ∈ l.dropWhile (· = 0)) : y ∈ l :=
  (List.dropWhile_sublist _).mem hy

/-- Unfolding of the decoder once the character scan has succeeded. -/
theorem b58DecodeInto_some {bufLen : Nat} {s : List Char} {vals : List Nat}
    (h : decodeVals s = some vals) :
    b58DecodeInto bufLen s =
      if (List.replicate (leadingZeroCount vals) 0
          ++ beDigits 256 (beNat 58 vals)).length ≤ bufLen then
        .ok (List.replicate (leadingZeroCount vals) 0
          ++ beDigits 256 (beNat 58 vals))
      else .error .bufferTooSmall := by
  unfold b58DecodeInto
  rw [h]

theorem beNat_replicate_zero (b z : Nat) :
    beNat b (List.replicate z 0) = 0 := by
  have := beNat_replicate_zero_append b z []
  simpa using this

theorem beDigits_zero (b : Nat) : beDigits b 0 = [] := by simp [beDigits]

/-- bs58 decode of a bs58 encode, into a buffer of exactly the input size,
writes back exactly the input. -/
theorem b58_roundtrip (bytes : List Nat) (h : ∀ b ∈ bytes, b < 256) :
    b58DecodeInto bytes.length (b58Encode bytes) = .ok bytes := by
  have hdig_lt : ∀ d ∈ beDigits 58 (beNat 256 bytes), d < 58 := by
    intro d hd
    exact Nat.digits_lt_base (by norm_num) (List.mem_reverse.mp hd)
  have hvals : decodeVals (b58Encode bytes) =
      some (List.replicate (leadingZeroCount bytes) 0
        ++ beDigits 58 (beNat 256 bytes)) := by
    unfold b58Encode
    exact decodeVals_append (decodeVals_replicate_one _)
      (decodeVals_map hdig_lt)
  rw [b58DecodeInto_some hvals]
  have hsplit := zero_split bytes
  cases hr : bytes.dropWhile (· = 0) with
  | nil =>
    rw [hr, List.append_nil] at hsplit
    have hn : beNat 256 bytes = 0 := by
      conv_lhs => rw [hsplit]
      exact beNat_replicate_zero 256 _
    rw [hn, beDigits_zero, List.append_nil, leadingZeroCount_replicate,
      beNat_replicate_zero, beDigits_zero, List.append_nil]
    rw [if_pos (le_of_eq (congrArg List.length hsplit.symm)), ← hsplit]
  | cons x xs =>
    have hx : x ≠ 0 := dropWhile_zero_head hr
    rw [hr] at hsplit
    have hlt_rest : ∀ y ∈ x :: xs, y < 256 := by
      intro y hy
      exact h y (mem_dropWhile_zero (hr ▸ hy))
    have hn_val : beNat 256 bytes = beNat 256 (x :: xs) := by
      conv_lhs => rw [hsplit]
      rw [beNat_replicate_zero_append]
    have hdig256 : beDigits 256 (beNat 256 bytes) = x :: xs := by
      rw [hn_val]
      exact beDigits_beNat (by norm_num) hx hlt_rest
    have hn0 : beNat 256 bytes ≠ 0 := by
      intro h0
      rw [h0, beDigits_zero] at hdig256
      exact List.noConfusion hdig256
    obtain ⟨d, ds, hD, hd0⟩ := beDigits_head (b := 58) hn0
    rw [hD, leadingZeroCount_replicate_append hd0,
      beNat_replicate_zero_append, ← hD, beNat_beDigits, hdig256]
    rw [if_pos (le_of_eq (congrArg List.length hsplit.symm))]
    rw [← hsplit]

/-! ### Splitting lemmas for the text codec. -/

theorem findColonIdx_none {s : List Char} (h : ':' ∉ s) :
    findColonIdx s = none := by
  induction s with
  | nil => rfl
  | cons c cs ih =>
    have hc : c ≠ ':' := fun he => h (he ▸ List.mem_cons_self c cs)
    simp [findColonIdx, hc, ih fun hm => h (List.mem_cons_of_mem c hm)]

theorem findColonIdx_append {pre post : List Char} (h : ':' ∉ pre) :
    findColonIdx (pre ++ ':' :: post) = some pre.length := by
  induction pre with
  | nil => simp [findColonIdx]
  | cons c cs ih =>
    have hc : c ≠ ':' := fun he => h (he ▸ List.mem_cons_self c cs)
    simp [findColonIdx, hc, ih fun hm => h (List.mem_cons_of_mem c hm)]

theorem take_append_length (a b : List Char) : (a ++ b).take a.length = a := by
  induction a with
  | nil => rfl
  | cons c cs ih => simp [List.take_succ_cons, ih]

theorem drop_append_length (a : List Char) (c : Char) (b : List Char) :
    (a ++ c :: b).drop (a.length + 1) = b := by
  induction a with
  | nil => rfl
  | cons d ds ih => simpa [List.drop] using ih

theorem split_no_colon {s : List Char} (h : ':' ∉ s) :
    split_key_type_data s = .ok (.ED25519, s) := by
  unfold split_key_type_data
  rw [findColonIdx_none h]

theorem split_at_colon {pre : List Char} (post : List Char)
    (h : ':' ∉ pre) :
    split_key_type_data (pre ++ ':' :: post) =
      match KeyType.fromString pre with
      | .ok t => .ok (t, post)
      | .error e => .error e
      | .panic => .panic := by
  unfold split_key_type_data
  rw [findColonIdx_append h]
  simp only [take_append_length, drop_append_length]

theorem keyTypeName_no_colon (t : KeyType) : ':' ∉ t.name := by
  cases t <;> decide

theorem fromString_name (t : KeyType) : KeyType.fromString t.name = .ok t := by
  cases t <;> decide

theorem split_encoded (t : KeyType) (payload : List Char) :
    split_key_type_data (t.name ++ ':' :: payload) = .ok (t, payload) := by
  rw [split_at_colon payload (keyTypeName_no_colon t), fromString_name]

theorem colon_not_mem_b58Encode (bytes : List Nat) :
    ':' ∉ b58Encode bytes := by
  intro hmem
  unfold b58Encode at hmem
  rcases List.mem_append.mp hmem with h1 | h2
  · exact absurd (List.eq_of_mem_replicate h1) (by decide)
  · obtain ⟨d, _, hd⟩ := List.mem_map.mp h2
    exact b58Char_ne_colon d hd

theorem parsePayload_encode {bytes : List Nat} (h : ∀ b ∈ bytes, b < 256) :
    parsePayload bytes.length (b58Encode bytes) = .ok bytes := by
  unfold parsePayload
  rw [b58_roundtrip bytes h]
  simp

/-! ### Text round-trips for the three union types. -/

theorem pub_text_roundtrip {pk : PublicKey} (h : pk.wf) :
    PublicKey.fromStr pk.toStr = .ok pk := by
  obtain ⟨hlen, hlt⟩ := h
  have h1 : split_key_type_data pk.toStr
      = .ok (pk.key_type, b58Encode pk.key_data) := by
    unfold PublicKey.toStr
    exact split_encoded _ _
  have h2 : parsePayload (pubKeyDataLen pk.key_type)
      (b58Encode pk.key_data) = .ok pk.key_data := by
    rw [← hlen]
    exact parsePayload_encode hlt
  simp only [PublicKey.fromStr, h1, h2]
  cases pk <;> rfl

theorem sk_text_roundtrip (env : CryptoEnv) {sk : SecretKey} (h : sk.wf)
    (ha : sk.acceptedBy env) :
    SecretKey.fromStr env sk.toStr = .ok sk := by
  obtain ⟨hlen, hlt⟩ := h
  have h1 : split_key_type_data sk.toStr
      = .ok (sk.key_type, b58Encode sk.key_data) := by
    unfold SecretKey.toStr
    exact split_encoded _ _
  have h2 : parsePayload (skDataLen sk.key_type)
      (b58Encode sk.key_data) = .ok sk.key_data := by
    rw [← hlen]
    exact parsePayload_encode hlt
  simp only [SecretKey.fromStr, h1, h2]
  cases sk with
  | ED25519 d => rfl
  | SECP256K1 d =>
    simp only [SecretKey.acceptedBy] at ha
    simp [SecretKey.key_type, SecretKey.key_data, ha]
  | FALCON512 d => rfl

theorem sig_text_roundtrip (env : CryptoEnv) {sig : Signature} (h : sig.wf)
    (ha : sig.acceptedBy env) :
    Signature.fromStr env sig.toStr = .ok sig := by
  obtain ⟨hlen, hlt⟩ := h
  have h1 : split_key_type_data sig.toStr
      = .ok (sig.key_type, b58Encode sig.key_data) := by
    unfold Signature.toStr
    exact split_encoded _ _
  have h2 : parsePayload (sigDataLen sig.key_type)
      (b58Encode sig.key_data) = .ok sig.key_data := by
    rw [← hlen]
    exact parsePayload_encode hlt
  simp only [Signature.fromStr, h1, h2]
  cases sig with
  | ED25519 d =>
    simp only [Signature.acceptedBy] at ha
    simp [Signature.key_type, Signature.key_data, ha]
  | SECP256K1 d => rfl
  | FALCON512 d =>
    simp only [Signature.acceptedBy] at ha
    simp [Signature.key_type, Signature.key_data, ha]

/-! ### Binary round-trips. -/

theorem readBytes_exact {n : Nat} {l : List Nat} (h : l.length = n) :
    readBytes n l = .ok (l, []) := by
  subst h
  simp [readBytes, List.take_length, List.drop_length]

theorem pub_borsh_roundtrip {pk : PublicKey} (h : pk.wf) :
    PublicKey.borshDeser pk.borshSer = .ok (pk, []) := by
  obtain ⟨hlen, _⟩ := h
  cases pk with
  | ED25519 d =>
    have hr : readBytes (pubKeyDataLen KeyType.ED25519) d = .ok (d, []) :=
      readBytes_exact hlen
    simp [PublicKey.borshSer, PublicKey.borshDeser, PublicKey.key_type,
      PublicKey.key_data, KeyType.disc, KeyType.tryFromByte, hr]
  | SECP256K1 d =>
    have hr : readBytes (pubKeyDataLen KeyType.SECP256K1) d = .ok (d, []) :=
      readBytes_exact hlen
    simp [PublicKey.borshSer, PublicKey.borshDeser, PublicKey.key_type,
      PublicKey.key_data, KeyType.disc, KeyType.tryFromByte, hr]
  | FALCON512 d =>
    have hr : readBytes (pubKeyDataLen KeyType.FALCON512) d = .ok (d, []) :=
      readBytes_exact hlen
    simp [PublicKey.borshSer, PublicKey.borshDeser, PublicKey.key_type,
      PublicKey.key_data, KeyType.disc, KeyType.tryFromByte, hr]

theorem sk_borsh_roundtrip {sk : SecretKey} (h : sk.wf) :
    SecretKey.borshDeser sk.borshSer = .ok (sk, []) := by
  obtain ⟨hlen, _⟩ := h
  cases sk with
  | ED25519 d =>
    have hr : readBytes (skDataLen KeyType.ED25519) d = .ok (d, []) :=
      readBytes_exact hlen
    simp [SecretKey.borshSer, SecretKey.borshDeser, SecretKey.key_type,
      SecretKey.key_data, KeyType.disc, KeyType.tryFromByte, hr]
  | SECP256K1 d =>
    have hr : readBytes (skDataLen KeyType.SECP256K1) d = .ok (d, []) :=
      readBytes_exact hlen
    simp [SecretKey.borshSer, SecretKey.borshDeser, SecretKey.key_type,
      SecretKey.key_data, KeyType.disc, KeyType.tryFromByte, hr]
  | FALCON512 d =>
    have hr : readBytes (skDataLen KeyType.FALCON512) d = .ok (d, []) :=
      readBytes_exact hlen
    simp [SecretKey.borshSer, SecretKey.borshDeser, SecretKey.key_type,
      SecretKey.key_data, KeyType.disc, KeyType.tryFromByte, hr]

theorem sig_borsh_roundtrip (env : CryptoEnv) {sig : Signature}
    (h : sig.wf) (ha : sig.acceptedBy env) :
    Signature.borshDeser env sig.borshSer = .ok (sig, []) := by
  obtain ⟨hlen, _⟩ := h
  cases sig with
  | ED25519 d =>
    have hr : readBytes (sigDataLen KeyType.ED25519) d = .ok (d, []) :=
      readBytes_exact hlen
    simp only [Signature.acceptedBy] at ha
    simp [Signature.borshSer, Signature.borshDeser, Signature.key_type,
      Signature.key_data, KeyType.disc, KeyType.tryFromByte, hr, ha]
  | SECP256K1 d =>
    have hr : readBytes (sigDataLen KeyType.SECP256K1) d = .ok (d, []) :=
      readBytes_exact hlen
    simp [Signature.borshSer, Signature.borshDeser, Signature.key_type,
      Signature.key_data, KeyType.disc, KeyType.tryFromByte, hr]
  | FALCON512 d =>
    have hr : readBytes (sigDataLen KeyType.FALCON512) d = .ok (d, []) :=
      readBytes_exact hlen
    simp only [Signature.acceptedBy] at ha
    simp [Signature.borshSer, Signature.borshDeser, Signature.key_type,
      Signature.key_data, KeyType.disc, KeyType.tryFromByte, hr, ha]

/-! ### Equality and ordering lemmas. -/

theorem sliceCmp_eq_iff (a b : List Nat) : sliceCmp a b = .eq ↔ a = b := by
  induction a generalizing b with
  | nil => cases b <;> simp [sliceCmp]
  | cons x xs ih =>
    cases b with
    | nil => simp [sliceCmp]
    | cons y ys =>
      unfold sliceCmp byteCmp
      by_cases hxy : x < y
      · simp [hxy]
        omega
      · by_cases hyx : y < x
        · simp [hxy, hyx]
          omega
        · have hxy2 : x = y := by omega
          subst hxy2
          simp [hxy, hyx, ih]

theorem sliceCmp_lt_iff_gt (a b : List Nat) :
    sliceCmp a b = .lt ↔ sliceCmp b a = .gt := by
  induction a generalizing b with
  | nil => cases b <;> simp [sliceCmp]
  | cons x xs ih =>
    cases b with
    | nil => simp [sliceCmp]
    | cons y ys =>
      unfold sliceCmp byteCmp
      by_cases hxy : x < y
      · have : ¬ y < x := by omega
        simp [hxy, this]
      · by_cases hyx : y < x
        · simp [hxy, hyx]
        · have hxy2 : x = y := by omega
          subst hxy2
          simp [hxy, hyx, ih]

/-! ### Concrete environments (used to instantiate the abstract
collaborators on closed inputs). -/

/-- Every library parser accepts and every verifier accepts; byte-producing
operations return the empty buffer. -/
def envAcc : CryptoEnv :=
  ⟨fun _ => true, fun _ _ _ => true, fun _ => true, fun _ => true,
   fun _ _ => [], fun _ => [], fun _ => [],
   fun _ _ => true, fun _ => true, fun _ _ _ => true, fun _ => true,
   fun _ _ => ([], 0), fun _ => [], fun _ => [], fun _ => [],
   fun _ => true, fun _ _ _ => true, fun _ => true, fun _ => true,
   fun _ _ => [], fun _ => [], fun _ => [], fun _ => []⟩

/-- Parsers accept (except the falcon signature parser), every verifier
rejects: models feeding structurally valid but wrong key material. -/
def envRej : CryptoEnv :=
  ⟨fun _ => true, fun _ _ _ => false, fun _ => true, fun _ => true,
   fun _ _ => [], fun _ => [], fun _ => [],
   fun _ _ => true, fun _ => true, fun _ _ _ => false, fun _ => true,
   fun _ _ => ([], 0), fun _ => [], fun _ => [], fun _ => [],
   fun _ => true, fun _ _ _ => false, fun _ => false, fun _ => true,
   fun _ _ => [], fun _ => [], fun _ => [], fun _ => []⟩

/-! ## Claim theorems -/

/-- Claim C1, amended.  For every environment, signature, public key and
data: a mismatched algorithm tag pair always yields ok false, never an error
or an abort; for a matching ED25519 or FALCON512 pair, a public key the
scheme rejects (unparsable, or parsable but failing verification: a
structurally valid but wrong key) yields ok false; for a matching SECP256K1
pair a wrong key yields ok false provided the recovery byte is 0..=3, the
compact encoding parses, the data is 32 bytes and the key parses as a curve
point (outside those conditions the SECP256K1 branch aborts, see C2). -/
theorem c1_verify_dispatch (env : CryptoEnv) (sig : Signature)
    (pk : PublicKey) (data : List Nat) :
    (sig.key_type ≠ pk.key_type →
      Signature.verify env sig data pk = .ok false)
  ∧ (∀ s p, sig = .ED25519 s → pk = .ED25519 p →
      env.edPkOk p = false ∨ env.edVerify p data s = false →
      Signature.verify env sig data pk = .ok false)
  ∧ (∀ s p, sig = .FALCON512 s → pk = .FALCON512 p →
      env.falconPkOk p = false ∨ env.falconVerify p data s = false →
      Signature.verify env sig data pk = .ok false)
  ∧ (∀ s p, sig = .SECP256K1 s → pk = .SECP256K1 p →
      s.getD 64 0 < 4 →
      env.secpFromCompactOk (s.take 64) (s.getD 64 0) = true →
      data.length = 32 →
      env.secpPkOk (4 :: p) = true →
      env.secpVerifyEcdsa data (s.take 64) p = false →
      Signature.verify env sig data pk = .ok false) := by
  refine ⟨?_, ?_, ?_, ?_⟩
  · intro hne
    cases sig <;> cases pk <;>
      first
        | rfl
        | (simp [Signature.key_type, PublicKey.key_type] at hne)
  · rintro s p rfl rfl hrej
    rcases hrej with hpk | hv
    · simp [Signature.verify, hpk]
    · cases hpk : env.edPkOk p <;> simp [Signature.verify, hpk, hv]
  · rintro s p rfl rfl hrej
    rcases hrej with hpk | hv
    · simp [Signature.verify, hpk]
    · cases hpk : env.falconPkOk p <;> simp [Signature.verify, hpk, hv]
  · rintro s p rfl rfl h3 h4 h5 h6 h7
    simp only [Signature.verify]
    rw [if_neg (Nat.not_le.mpr h3), if_neg (by rw [h4]; simp),
      if_neg (by simp [h5]), if_neg (by rw [h6]; simp), h7]

/-- Witness for C1 at concrete inputs: one mismatched pair per clause shape
and each matching clause with a rejecting verifier. -/
theorem c1_witness :
    Signature.verify envRej (.ED25519 (List.replicate 64 0)) []
      (.SECP256K1 (List.replicate 64 0)) = .ok false
  ∧ Signature.verify envRej (.ED25519 (List.replicate 64 0)) []
      (.ED25519 (List.replicate 32 0)) = .ok false
  ∧ Signature.verify envRej (.FALCON512 (List.replicate 666 0)) []
      (.FALCON512 (List.replicate 897 0)) = .ok false
  ∧ Signature.verify envRej (.SECP256K1 (List.replicate 65 0))
      (List.replicate 32 0) (.SECP256K1 (List.replicate 64 0)) = .ok false :=
  ⟨(c1_verify_dispatch envRej _ _ _).1 (by decide),
   (c1_verify_dispatch envRej _ _ _).2.1 _ _ rfl rfl (Or.inr rfl),
   (c1_verify_dispatch envRej _ _ _).2.2.1 _ _ rfl rfl (Or.inr rfl),
   (c1_verify_dispatch envRej _ _ _).2.2.2 _ _ rfl rfl (by decide) rfl
     (by decide) rfl rfl⟩

/-- Counterexample to claim C1 as stated: a structurally valid (64-byte)
SECP256K1 public key of the matching algorithm, a wrong key for this
signature (the verifier of envRej rejects everything), yet verify does not
return false: the malformed recovery byte 5 aborts it. -/
theorem c1_counterexample :
    Signature.verify envRej (.SECP256K1 (List.replicate 64 0 ++ [5]))
      (List.replicate 32 0) (.SECP256K1 (List.replicate 64 0))
      ≠ .ok false := by decide

/-- Claim C2, code-bug evidence: for every environment, every data string
and every 64-byte key body, a SECP256K1 signature whose 65th byte is 4 (not
a valid recovery id) makes verify abort (RecoveryId::from_i32(4).unwrap())
instead of returning false as the spec requires. -/
theorem c2_panic_on_bad_recovery_id (env : CryptoEnv) (data p : List Nat) :
    Signature.verify env (.SECP256K1 (List.replicate 64 0 ++ [4])) data
      (.SECP256K1 p) = .panic := rfl

/-- Claim C6: text parsing of any string: with no colon the whole string is
an ED25519 payload; with a colon, the prefix before the first colon is
parsed as the algorithm name and everything after that colon is the payload;
an unknown name yields UnknownKeyType carrying the lowercased token. -/
theorem c6_split_key_type_data (s pre post : List Char) :
    (':' ∉ s → split_key_type_data s = .ok (.ED25519, s))
  ∧ (':' ∉ pre → s = pre ++ ':' :: post →
      split_key_type_data s =
        match KeyType.fromString pre with
        | .ok t => .ok (t, post)
        | .error e => .error e
        | .panic => .panic)
  ∧ (':' ∉ pre → s = pre ++ ':' :: post →
      (∀ t, KeyType.fromString pre ≠ .ok t) →
      split_key_type_data s =
        .error (.unknownKeyType (pre.map asciiLower))) := by
  refine ⟨fun h => split_no_colon h, ?_, ?_⟩
  · rintro h rfl
    exact split_at_colon post h
  · rintro h rfl hunk
    rw [split_at_colon post h]
    cases hf : KeyType.fromString pre with
    | ok t => exact absurd hf (hunk t)
    | error e =>
      have he : e = .unknownKeyType (pre.map asciiLower) := by
        simp only [KeyType.fromString] at hf
        split_ifs at hf with h1 h2 h3 <;> simp_all
      rw [he]
    | panic =>
      exfalso
      simp only [KeyType.fromString] at hf
      split_ifs at hf

/-- Witness for C6: the three clauses at concrete strings. -/
theorem c6_witness :
    split_key_type_data "abc".toList = .ok (.ED25519, "abc".toList)
  ∧ split_key_type_data ("ed25519".toList ++ ':' :: "xy".toList)
      = .ok (.ED25519, "xy".toList)
  ∧ split_key_type_data ("foo".toList ++ ':' :: "xy".toList)
      = .error (.unknownKeyType "foo".toList) :=
  ⟨(c6_split_key_type_data "abc".toList [] []).1 (by decide),
   (c6_split_key_type_data _ "ed25519".toList "xy".toList).2.1
     (by decide) rfl,
   (c6_split_key_type_data _ "foo".toList "xy".toList).2.2
     (by decide) rfl (by intro t; cases t <;> decide)⟩

/-- Claim C7: for a 65-byte signature whose r is below the curve order and
whose s lies in the upper half (at least half-order-plus-one, below the
order), the strict check rejects and the permissive check accepts. -/
theorem c7_check_signature_values (sig : List Nat) (hlen : sig.length = 65)
    (hr : beNat 256 (sig.take 32) < SECP256K1_N)
    (hs1 : SECP256K1_N_HALF_ONE ≤ beNat 256 ((sig.drop 32).take 32))
    (hs2 : beNat 256 ((sig.drop 32).take 32) < SECP256K1_N) :
    check_signature_values sig true = false
  ∧ check_signature_values sig false = true := by
  constructor
  · unfold check_signature_values
    simp [hr, Nat.not_lt.mpr hs1]
  · unfold check_signature_values
    simp [hr, hs2]

/-- Witness for C7: r = 1 and s = n - 1 (the maximal upper-half value). -/
theorem c7_witness :
    check_signature_values ((List.replicate 31 0 ++ [1]) ++
      ([255, 255, 255, 255, 255, 255, 255, 255,
        255, 255, 255, 255, 255, 255, 255, 254,
        186, 174, 220, 230, 175, 72, 160, 59,
        191, 210, 94, 140, 208, 54, 65, 64] ++ [0])) true = false
  ∧ check_signature_values ((List.replicate 31 0 ++ [1]) ++
      ([255, 255, 255, 255, 255, 255, 255, 255,
        255, 255, 255, 255, 255, 255, 255, 254,
        186, 174, 220, 230, 175, 72, 160, 59,
        191, 210, 94, 140, 208, 54, 65, 64] ++ [0])) false = true :=
  c7_check_signature_values _ (by decide) (by decide) (by decide) (by decide)

/-- Claim C3: for every environment and every well-formed PublicKey,
SecretKey and Signature value (fixed-size byte payload, the wrapped library
object accepted by its own byte parser), parsing the canonical text encoding
algorithm-name colon base58-payload gives back exactly the value. -/
theorem c3_text_roundtrip (env : CryptoEnv) (pk : PublicKey)
    (sk : SecretKey) (sig : Signature) (hpk : pk.wf) (hsk : sk.wf)
    (hska : sk.acceptedBy env) (hsig : sig.wf)
    (hsiga : sig.acceptedBy env) :
    PublicKey.fromStr pk.toStr = .ok pk
  ∧ SecretKey.fromStr env sk.toStr = .ok sk
  ∧ Signature.fromStr env sig.toStr = .ok sig :=
  ⟨pub_text_roundtrip hpk, sk_text_roundtrip env hsk hska,
   sig_text_roundtrip env hsig hsiga⟩

/-- Witness for C3 at one concrete value per union type. -/
theorem c3_witness :
    PublicKey.fromStr (PublicKey.toStr (.ED25519 (List.replicate 32 0)))
      = .ok (.ED25519 (List.replicate 32 0))
  ∧ SecretKey.fromStr envAcc
      (SecretKey.toStr (.SECP256K1 (List.replicate 32 0)))
      = .ok (.SECP256K1 (List.replicate 32 0))
  ∧ Signature.fromStr envAcc
      (Signature.toStr (.ED25519 (List.replicate 64 0)))
      = .ok (.ED25519 (List.replicate 64 0)) :=
  c3_text_roundtrip envAcc _ _ _ (by decide) (by decide) rfl (by decide) rfl

/-- Claim C4: the binary codec is symmetric.  Serialization is exactly one
discriminant byte (0, 1 or 2) followed by the fixed-length raw payload with
no length prefix, and deserializing a serialization gives back the value
with no bytes left over.  The SecretKey codec is not in src and is modelled
from the spec (see SecretKey.borshSer). -/
theorem c4_borsh_roundtrip (env : CryptoEnv) (pk : PublicKey)
    (sk : SecretKey) (sig : Signature) (hpk : pk.wf) (hsk : sk.wf)
    (hsig : sig.wf) (hsiga : sig.acceptedBy env) :
    PublicKey.borshSer pk = pk.key_type.disc :: pk.key_data
  ∧ PublicKey.borshDeser (PublicKey.borshSer pk) = .ok (pk, [])
  ∧ SecretKey.borshSer sk = sk.key_type.disc :: sk.key_data
  ∧ SecretKey.borshDeser (SecretKey.borshSer sk) = .ok (sk, [])
  ∧ Signature.borshSer sig = sig.key_type.disc :: sig.key_data
  ∧ Signature.borshDeser env (Signature.borshSer sig) = .ok (sig, []) :=
  ⟨rfl, pub_borsh_roundtrip hpk, rfl, sk_borsh_roundtrip hsk, rfl,
   sig_borsh_roundtrip env hsig hsiga⟩

/-- Witness for C4 at one concrete value per union type. -/
theorem c4_witness :
    PublicKey.borshDeser
      (PublicKey.borshSer (.SECP256K1 (List.replicate 64 0)))
      = .ok (.SECP256K1 (List.replicate 64 0), [])
  ∧ SecretKey.borshDeser
      (SecretKey.borshSer (.ED25519 (List.replicate 64 0)))
      = .ok (.ED25519 (List.replicate 64 0), [])
  ∧ Signature.borshDeser envAcc
      (Signature.borshSer (.ED25519 (List.replicate 64 0)))
      = .ok (.ED25519 (List.replicate 64 0), []) :=
  ⟨(c4_borsh_roundtrip envAcc (.SECP256K1 (List.replicate 64 0))
      (.ED25519 (List.replicate 64 0)) (.ED25519 (List.replicate 64 0))
      (by decide) (by decide) (by decide) rfl).2.1,
   (c4_borsh_roundtrip envAcc (.SECP256K1 (List.replicate 64 0))
      (.ED25519 (List.replicate 64 0)) (.ED25519 (List.replicate 64 0))
      (by decide) (by decide) (by decide) rfl).2.2.2.1,
   (c4_borsh_roundtrip envAcc (.SECP256K1 (List.replicate 64 0))
      (.ED25519 (List.replicate 64 0)) (.ED25519 (List.replicate 64 0))
      (by decide) (by decide) (by decide) rfl).2.2.2.2.2⟩

/-- Claim C5, amended.  Text parsing reports InvalidLength with the exact
expected constant whenever base58 decoding succeeds with a length other than
the expected one (which, decoding into a buffer of the expected size, means
fewer bytes); a payload that does not fit the buffer surfaces as InvalidData
from the base58 decoder.  Signature::from_parts does not follow the
InvalidLength discipline: a wrong-length SECP256K1 payload is InvalidData
with a fixed message, and a FALCON512 payload the library rejects aborts. -/
theorem c5_length_validation (env : CryptoEnv) (t : KeyType)
    (keyData : List Char) (out : List Nat) :
    (b58DecodeInto (pubKeyDataLen t) keyData = .ok out →
      out.length ≠ pubKeyDataLen t →
      PublicKey.fromStr (t.name ++ ':' :: keyData)
        = .error (.invalidLength (pubKeyDataLen t) out.length))
  ∧ (b58DecodeInto (skDataLen t) keyData = .ok out →
      out.length ≠ skDataLen t →
      SecretKey.fromStr env (t.name ++ ':' :: keyData)
        = .error (.invalidLength (skDataLen t) out.length))
  ∧ (b58DecodeInto (sigDataLen t) keyData = .ok out →
      out.length ≠ sigDataLen t →
      Signature.fromStr env (t.name ++ ':' :: keyData)
        = .error (.invalidLength (sigDataLen t) out.length))
  ∧ (∀ e, b58DecodeInto (pubKeyDataLen t) keyData = .error e →
      PublicKey.fromStr (t.name ++ ':' :: keyData)
        = .error (.invalidData (.b58 e)))
  ∧ (∀ d : List Nat, d.length ≠ 65 →
      Signature.from_parts env .SECP256K1 d
        = .error (.invalidData .secpSigLen))
  ∧ (∀ d : List Nat, env.falconSigOk d = false →
      Signature.from_parts env .FALCON512 d = .panic) := by
  refine ⟨?_, ?_, ?_, ?_, ?_, ?_⟩
  · intro hdec hne
    have hpp : parsePayload (pubKeyDataLen t) keyData
        = .error (.invalidLength (pubKeyDataLen t) out.length) := by
      unfold parsePayload
      rw [hdec]
      simp [hne]
    simp [PublicKey.fromStr, split_encoded, hpp]
  · intro hdec hne
    have hpp : parsePayload (skDataLen t) keyData
        = .error (.invalidLength (skDataLen t) out.length) := by
      unfold parsePayload
      rw [hdec]
      simp [hne]
    simp [SecretKey.fromStr, split_encoded, hpp]
  · intro hdec hne
    have hpp : parsePayload (sigDataLen t) keyData
        = .error (.invalidLength (sigDataLen t) out.length) := by
      unfold parsePayload
      rw [hdec]
      simp [hne]
    simp [Signature.fromStr, split_encoded, hpp]
  · intro e hdec
    have hpp : parsePayload (pubKeyDataLen t) keyData
        = .error (.invalidData (.b58 e)) := by
      unfold parsePayload
      rw [hdec]
    simp [PublicKey.fromStr, split_encoded, hpp]
  · intro d hlen
    simp [Signature.from_parts, hlen]
  · intro d hrej
    simp [Signature.from_parts, hrej]

/-- Decoding the one-character string 1 into a 32-byte buffer writes one
zero byte. -/
theorem b58_decode_single_one : b58DecodeInto 32 ['1'] = .ok [0] := by
  have h : decodeVals ['1'] = some [0] := rfl
  rw [b58DecodeInto_some h]
  simp [leadingZeroCount, List.takeWhile, beNat, beDigits,
    Nat.ofDigits_cons, Nat.ofDigits_nil]

/-- Witness for C5: a one-byte payload declared ED25519 yields InvalidLength
with expected 32; a one-byte SECP256K1 from_parts payload yields the fixed
InvalidData; a Falcon from_parts payload the library rejects aborts. -/
theorem c5_witness :
    PublicKey.fromStr (KeyType.name .ED25519 ++ ':' :: ['1'])
      = .error (.invalidLength 32 1)
  ∧ Signature.from_parts envAcc .SECP256K1 [0]
      = .error (.invalidData .secpSigLen)
  ∧ Signature.from_parts envRej .FALCON512 [0] = .panic :=
  ⟨(c5_length_validation envAcc .ED25519 ['1'] [0]).1
      b58_decode_single_one (by decide),
   (c5_length_validation envAcc .ED25519 [] []).2.2.2.2.1 [0] (by decide),
   (c5_length_validation envRej .ED25519 [] []).2.2.2.2.2 [0] rfl⟩

/-- Counterexample to claim C5 as stated: Signature::from_parts with a
SECP256K1 tag and a one-byte payload fails with InvalidData carrying a fixed
message, not with InvalidLength with expected 65 and received 1. -/
theorem c5_counterexample :
    Signature.from_parts envAcc .SECP256K1 [0]
        = .error (.invalidData .secpSigLen)
  ∧ Signature.from_parts envAcc .SECP256K1 [0]
        ≠ .error (.invalidLength 65 1) := by
  constructor
  · rfl
  · decide

/-- Claim C8, amended: for every environment, the from_seed,
from_secret_key and from_random constructors establish the invariant that
the stored public key is the one derived from the stored secret key; the
KeyFile conversion instead copies all three fields verbatim, so it preserves
the invariant only when the loaded file is itself consistent. -/
theorem c8_signer_invariant (env : CryptoEnv) (a : List Char) (t : KeyType)
    (seed entropy : List Nat) (sk : SecretKey) (kf : KeyFile) :
    (InMemorySigner.from_seed env a t seed).public_key
      = (InMemorySigner.from_seed env a t seed).secret_key.public_key env
  ∧ (InMemorySigner.from_secret_key env a sk).public_key
      = (InMemorySigner.from_secret_key env a sk).secret_key.public_key env
  ∧ (InMemorySigner.from_random env a t entropy).public_key
      = (InMemorySigner.from_random env a t entropy).secret_key.public_key
          env
  ∧ (InMemorySigner.fromKeyFile kf).public_key = kf.public_key
  ∧ (InMemorySigner.fromKeyFile kf).secret_key = kf.secret_key
  ∧ (InMemorySigner.fromKeyFile kf).account_id = kf.account_id :=
  ⟨rfl, rfl, rfl, rfl, rfl, rfl⟩

/-- Counterexample to claim C8 as stated: a KeyFile whose stored public key
is not the one derived from its secret key converts to a signer violating
the invariant (the conversion performs no consistency check). -/
theorem c8_counterexample :
    (InMemorySigner.fromKeyFile
        ⟨"test".toList, .ED25519 (1 :: List.replicate 31 0),
         .ED25519 (List.replicate 64 0)⟩).public_key
      ≠ ((InMemorySigner.fromKeyFile
        ⟨"test".toList, .ED25519 (1 :: List.replicate 31 0),
         .ED25519 (List.replicate 64 0)⟩).secret_key).public_key envAcc :=
  by decide

/-- Claim C9, amended: equality and ordering of the Secp256K1 public-key
wrapper are byte-wise lexicographic on the whole buffer, and the Falcon512
secret-key wrapper compares its whole buffer; the ED25519 secret-key
wrapper, however, compares only the first 32 (seed) bytes of its 64-byte
keypair buffer. -/
theorem c9_wrapper_eq_ord (a b : List Nat) :
    (secp256k1PkEq a b = true ↔ a = b)
  ∧ (secp256k1PkCmp a b = .eq ↔ a = b)
  ∧ (secp256k1PkCmp a b = .lt ↔ secp256k1PkCmp b a = .gt)
  ∧ (ed25519SkEq a b = true ↔
      a.take ED25519_SECRET_KEY_LENGTH = b.take ED25519_SECRET_KEY_LENGTH)
  ∧ (a.length = NEAR_FALCON512_PRIVKEY_SIZE →
      b.length = NEAR_FALCON512_PRIVKEY_SIZE →
      (falcon512SkEq a b = true ↔ a = b)) := by
  refine ⟨?_, sliceCmp_eq_iff a b, sliceCmp_lt_iff_gt a b, ?_, ?_⟩
  · simp [secp256k1PkEq]
  · simp [ed25519SkEq]
  · intro ha hb
    have h1 : List.take NEAR_FALCON512_PRIVKEY_SIZE a = a := by
      rw [← ha]
      simp
    have h2 : List.take NEAR_FALCON512_PRIVKEY_SIZE b = b := by
      rw [← hb]
      simp
    unfold falcon512SkEq
    rw [h1, h2]
    simp

/-- Witness for C9, discharging the length hypotheses of the Falcon clause
on concrete buffers. -/
theorem c9_witness :
    falcon512SkEq (List.replicate 1281 0) (List.replicate 1281 0) = true
      ↔ List.replicate 1281 0 = List.replicate 1281 0 :=
  (c9_wrapper_eq_ord _ _).2.2.2.2
    (by rw [List.length_replicate]; rfl)
    (by rw [List.length_replicate]; rfl)

/-- Counterexample to claim C9 as stated: two ED25519 secret-key buffers
that differ in byte 63 but share the seed half compare equal. -/
theorem c9_counterexample :
    ed25519SkEq (List.replicate 64 0) (List.replicate 63 0 ++ [1]) = true
  ∧ List.replicate 64 0 ≠ List.replicate 63 0 ++ [1] := by decide

/-- Claim C10: deriving the public key preserves the algorithm tag, and
whenever sign returns a signature, that signature carries the tag of the
signing key. -/
theorem c10_tag_preservation (env : CryptoEnv) (sk : SecretKey) :
    (sk.public_key env).key_type = sk.key_type
  ∧ ∀ data sig, sk.sign env data = .ok sig →
      sig.key_type = sk.key_type := by
  constructor
  · cases sk <;> rfl
  · intro data sig h
    cases sk with
    | ED25519 kp =>
      simp only [SecretKey.sign] at h
      split at h
      · cases h; rfl
      · cases h
    | SECP256K1 k =>
      simp only [SecretKey.sign] at h
      split at h
      · cases h; rfl
      · cases h
    | FALCON512 k =>
      simp only [SecretKey.sign] at h
      split at h
      · cases h; rfl
      · cases h

/-- Witness for C10, discharging the sign-returns hypothesis at a concrete
key and message. -/
theorem c10_witness :
    ((SecretKey.ED25519 (List.replicate 64 0)).public_key envAcc).key_type
      = (SecretKey.ED25519 (List.replicate 64 0)).key_type
  ∧ (Signature.ED25519 ([] : List Nat)).key_type
      = (SecretKey.ED25519 (List.replicate 64 0)).key_type :=
  ⟨(c10_tag_preservation envAcc _).1,
   (c10_tag_preservation envAcc (.ED25519 (List.replicate 64 0))).2 []
     (.ED25519 ([] : List Nat)) rfl⟩

end PQCrypto
